import Mathlib

/-!
Shallow embedding of the capacity-sizing and cost-allocation engine of this
repository: `Sizing/MongoDBSizing_CL.py` (per-client tier recommendation) and
`Sizing/MongoSizing.py` (proportional cost allocation).  The two scripts share
their parsing and record-assembly code verbatim.

Modelling conventions:

* Python `float` values are modelled as exact rationals (`ℚ`): the scripts only
  add, multiply and divide values obtained from short decimal literals, and the
  claims under study are about exact values and signs, which the rational
  semantics captures.
* A raised Python exception is modelled as `Option.none`.  `parse_data_size`
  can raise `ValueError` (its regex group `[\d\.]+` can match a string such as
  `"."` that `float` rejects), so its embedding returns `Option ℚ`; the
  record-assembly loop propagates that failure.  `parse_float_maybe` wraps its
  `float` call in `try/except`, so its embedding is total.
* The regex classes `\d` and `\s` are modelled at the ASCII level (decimal
  digits `0`–`9`; whitespace ` \t\n\r\x0b\x0c`), matching the spreadsheet data
  the scripts consume; `str.lower`/`str.strip` are likewise modelled on ASCII.
* Python `float(s)` is modelled on the sublanguage `[+-]? digits [. digits]?`
  (with either part of the literal optionally empty but at least one digit in
  total); exponent forms, `inf`, `nan` and `_` separators are outside the
  model.
-/

/-- Whitespace characters of Python's `str.strip` and of the regex class
`\s`, at the ASCII level. -/
def pySpace (c : Char) : Bool :=
  c == ' ' || c == '\t' || c == '\n' || c == '\r' || c == '\x0b' || c == '\x0c'

/-- Embedding of Python `str.strip()`: drop leading and trailing whitespace. -/
def pyStrip (s : String) : String :=
  String.mk (((s.data.dropWhile pySpace).reverse.dropWhile pySpace).reverse)

/-- ASCII case folding of one character, as done by `str.lower()` on the
ASCII range. -/
def pyLowerChar (c : Char) : Char :=
  if 'A' ≤ c ∧ c ≤ 'Z' then Char.ofNat (c.toNat + 32) else c

/-- Embedding of Python `str.lower()` (ASCII range). -/
def pyLower (s : String) : String :=
  String.mk (s.data.map pyLowerChar)

/-- Auxiliary scan: does the pattern occur as a contiguous run in the list? -/
def hasSubAux (t : List Char) : List Char → Bool
  | [] => t.isEmpty
  | c :: rest => t.isPrefixOf (c :: rest) || hasSubAux t rest

/-- Embedding of Python's substring test `pat in s`. -/
def hasSub (s pat : String) : Bool :=
  hasSubAux pat.data s.data

/-- Embedding of Python's `s.startswith(pat)`. -/
def pyStarts (s pat : String) : Bool :=
  pat.data.isPrefixOf s.data

/-- Leading group matched by `re.match(r"([\d\.]+)", s)`: the longest prefix
of digits and dots (`\d` modelled as ASCII digits).  The regex fails to match
exactly when this prefix is empty. -/
def leadGroup (l : List Char) : List Char :=
  l.takeWhile (fun c => c.isDigit || c == '.')

/-- Value of a digit string read in base 10. -/
def natDigits (l : List Char) : ℕ :=
  l.foldl (fun a c => 10 * a + (c.toNat - 48)) 0

/-- Python `float` on an unsigned body: defined iff every character is a digit
or a dot, there is at most one dot, and at least one digit; the value is
`intpart + fracpart / 10 ^ len(fracpart)`.  (Model subset: see the module
docstring.) -/
def pyFloatCore (l : List Char) : Option ℚ :=
  if (l.all fun c => c.isDigit || c == '.') && decide (l.count '.' ≤ 1)
      && (l.any fun c => c.isDigit) then
    some ((natDigits (l.takeWhile fun c => c ≠ '.') : ℚ)
      + (natDigits ((l.dropWhile fun c => c ≠ '.').drop 1) : ℚ)
        / (10 : ℚ) ^ ((l.dropWhile fun c => c ≠ '.').drop 1).length)
  else none

/-- Python `float(s)` on the modelled sublanguage; `none` models a raised
`ValueError`. -/
def pyFloat (s : String) : Option ℚ :=
  match s.data with
  | [] => pyFloatCore []
  | c :: rest =>
    if c = '+' then pyFloatCore rest
    else if c = '-' then (pyFloatCore rest).map (fun v => -v)
    else pyFloatCore (c :: rest)

/-- Embedding of `parse_data_size` (identical in both scripts): normalise the
string, honour the `#DIV/0` / `"0.00 mb"` / `0.00`-prefix / empty sentinels,
read the leading numeric group, and convert by the first unit token found
(`tb` ×1024, else `gb` ×1, else `mb` ÷1024, else no conversion).  Returns
`none` when `float(match.group(1))` would raise `ValueError`. -/
def parse_data_size (size_str : String) : Option ℚ :=
  let s := pyLower (pyStrip size_str)
  if hasSub s "#div/0" || s == "0.00 mb" || pyStarts s "0.00" then some 0
  else if s == "0.00 mb" || s == "" then some 0
  else
    let g := leadGroup s.data
    if g.isEmpty then some 0
    else
      match pyFloat (String.mk g) with
      | none => none
      | some val =>
        if hasSub s "tb" then some (val * 1024)
        else if hasSub s "gb" then some val
        else if hasSub s "mb" then some (val / 1024)
        else some val

/-- Embedding of `parse_float_maybe` (identical in both scripts): normalise,
honour the `#DIV/0` and empty sentinels, then `float(s)` with a `try/except`
that turns any failure into `0.0`. -/
def parse_float_maybe (s0 : String) : ℚ :=
  let s := pyLower (pyStrip s0)
  if hasSub s "#div/0" || s == "" then 0
  else
    match pyFloat s with
    | some v => v
    | none => 0

/-- One entry of the `clients_data` list built by both scripts: the dictionary
`{"client": ..., "data_gb": ..., "avg_read_ops_s": ..., "avg_write_ops_s": ...}`. -/
structure ClientRecord where
  client : String
  data_gb : ℚ
  avg_read_ops_s : ℚ
  avg_write_ops_s : ℚ
deriving DecidableEq, Repr

/-- The five-column branch's linear scan: find the first record with the given
client name and overwrite its throughput fields; `none` when no record
matches (the loop's `found` flag stays false). -/
def updOps (name : String) (r w : ℚ) : List ClientRecord → Option (List ClientRecord)
  | [] => none
  | d :: rest =>
    if d.client = name then
      some ({ d with avg_read_ops_s := r, avg_write_ops_s := w } :: rest)
    else
      (updOps name r w rest).map (fun l => d :: l)

/-- One iteration of the input loop, acting on already tokenized columns:
a 4-column row appends a new size record unconditionally; a 5-column row
updates the first matching record in place or appends a throughput-only
record; any other width is skipped.  `none` propagates a `ValueError` raised
by `parse_data_size`. -/
def processRow (acc : List ClientRecord) (cols : List String) : Option (List ClientRecord) :=
  if cols.length = 4 then
    let name := pyLower (pyStrip (cols.getD 0 ""))
    match parse_data_size (pyStrip (cols.getD 2 "")) with
    | none => none
    | some v => some (acc ++ [⟨name, v, 0, 0⟩])
  else if cols.length = 5 then
    let name := pyLower (pyStrip (cols.getD 0 ""))
    let r := parse_float_maybe (cols.getD 1 "")
    let w := parse_float_maybe (cols.getD 2 "")
    match updOps name r w acc with
    | some acc2 => some acc2
    | none => some (acc ++ [⟨name, 0, r, w⟩])
  else
    some acc

/-- The full assembly loop over tokenized rows, starting from the empty
`clients_data` list. -/
def processRows (rows : List (List String)) : Option (List ClientRecord) :=
  rows.foldlM processRow []

/-- Embedding of Python `raw_line.split("\t")` at the character-list level. -/
def splitOnChar (sep : Char) (l : List Char) : List (List Char) :=
  l.foldr
    (fun d acc =>
      match acc with
      | t :: rest => if d = sep then [] :: t :: rest else (d :: t) :: rest
      | [] => [[d]])
    [[]]

/-- State of the scan embedding `re.split(r"\s{2,}", raw_line)`: tokens
emitted so far, the current token, and the pending whitespace run. -/
structure Ws2State where
  toks : List (List Char)
  cur : List Char
  run : List Char
deriving Repr

/-- One step of the `\s{2,}` splitter: whitespace extends the pending run; a
non-whitespace character either closes the current token (when the pending run
has length ≥ 2, i.e. the regex matched) or folds the short run back into the
current token. -/
def ws2Step (st : Ws2State) (c : Char) : Ws2State :=
  if pySpace c then ⟨st.toks, st.cur, st.run ++ [c]⟩
  else if 2 ≤ st.run.length then ⟨st.toks ++ [st.cur], [c], []⟩
  else ⟨st.toks, st.cur ++ st.run ++ [c], []⟩

/-- Embedding of `re.split(r"\s{2,}", s)`: separators are maximal whitespace
runs of length at least two; shorter runs stay inside their token. -/
def splitWs2 (s : String) : List String :=
  let st := s.data.foldl ws2Step ⟨[], [], []⟩
  let fin :=
    if 2 ≤ st.run.length then st.toks ++ [st.cur, []]
    else st.toks ++ [st.cur ++ st.run]
  fin.map String.mk

/-- Tokenization of one stripped input line: split on tabs; if that yields
fewer than four columns, re-split on runs of two or more whitespace
characters. -/
def tokenizeLine (raw : String) : List String :=
  let cols := (splitOnChar '\t' raw.data).map String.mk
  if cols.length < 4 then splitWs2 raw else cols

/-- The scripts' input loop: strip each line, skip blank lines, tokenize, and
fold the per-row assembly step. -/
def processLines (lines : List String) : Option (List ClientRecord) :=
  processRows (((lines.map pyStrip).filter (fun l => l ≠ "")).map tokenizeLine)

/-- Derived quantity used by both scripts: `iops = read_ops + write_ops`. -/
def iopsOf (d : ClientRecord) : ℚ :=
  d.avg_read_ops_s + d.avg_write_ops_s

example : processLines ["acme\tJan\t1.00 TB\t5.00%", "acme\t900.0\t100.0\t90%\t10%"]
    = some [⟨"acme", 1024, 900, 100⟩] := by
  simp [processLines, processRows, processRow, tokenizeLine, splitOnChar, pyStrip, pyLower,
    pyLowerChar, pySpace, parse_data_size, parse_float_maybe, hasSub, hasSubAux, pyStarts,
    leadGroup, natDigits, pyFloat, pyFloatCore, updOps]

example : processLines ["acme\t900.0\t100.0\t90%\t10%", "acme\tJan\t1.00 TB\t5.00%"]
    = some [⟨"acme", 0, 900, 100⟩, ⟨"acme", 1024, 0, 0⟩] := by
  simp [processLines, processRows, processRow, tokenizeLine, splitOnChar, pyStrip, pyLower,
    pyLowerChar, pySpace, parse_data_size, parse_float_maybe, hasSub, hasSubAux, pyStarts,
    leadGroup, natDigits, pyFloat, pyFloatCore, updOps]
/-- Threshold constant of `MongoDBSizing_CL.py`. -/
def DATA_INTENSIVE_THRESHOLD : ℚ := 1024

/-- Threshold constant of `MongoDBSizing_CL.py`. -/
def IOPS_INTENSIVE_THRESHOLD : ℚ := 4000

/-- The `CLUSTER_TIERS` cost table of `MongoDBSizing_CL.py`, as an association
list. -/
def CLUSTER_TIERS : List (String × ℚ) :=
  [("M30", 1500), ("M50", 3000), ("M100", 5000), ("M200", 8000)]

/-- Embedding of `recommend_cluster_tier`: an ordered cascade of inclusive
comparisons, each level an OR of the storage and throughput conditions. -/
def recommend_cluster_tier (data_gb iops : ℚ) : String :=
  if 5000 ≤ data_gb ∨ 15000 ≤ iops then "M200"
  else if 2000 ≤ data_gb ∨ 8000 ≤ iops then "M100"
  else if 500 ≤ data_gb ∨ 2000 ≤ iops then "M50"
  else "M30"

/-- The classification branch of the `MongoDBSizing_CL.py` output loop. -/
def classify (data_gb iops : ℚ) : String :=
  let data_intensive := DATA_INTENSIVE_THRESHOLD ≤ data_gb
  let iops_intensive := IOPS_INTENSIVE_THRESHOLD ≤ iops
  if data_intensive ∧ iops_intensive then "Data+IOPS Intensive"
  else if data_intensive then "Data-Intensive"
  else if iops_intensive then "IOPS-Intensive"
  else "Moderate"

/-- The cost lookup `CLUSTER_TIERS.get(tier, 2000.0)` of the
`MongoDBSizing_CL.py` output loop, with its fallback constant. -/
def tier_monthly_cost (tier : String) : ℚ :=
  ((CLUSTER_TIERS.lookup tier).getD 2000)

/-- Configuration constant of `MongoSizing.py`. -/
def TOTAL_CLUSTER_COST : ℚ := 240000

/-- Configuration constant of `MongoSizing.py` (the script ships with the
pure-data policy selected). -/
def PURE_DATA_ONLY : Bool := true

/-- Configuration constant of `MongoSizing.py`. -/
def DEFAULT_DATA_WEIGHT : ℚ := 1 / 2

/-- Configuration constant of `MongoSizing.py`. -/
def DEFAULT_IOPS_WEIGHT : ℚ := 1 / 2

/-- Configuration constant of `MongoSizing.py`. -/
def HEAVY_DATA_WEIGHT : ℚ := 1 / 4

/-- Configuration constant of `MongoSizing.py`. -/
def HEAVY_IOPS_WEIGHT : ℚ := 3 / 4

/-- Configuration constant of `MongoSizing.py`. -/
def HEAVY_IOPS_CLIENTS : List String := ["adventhealth", "clevelandclin", "psjhealth"]

/-- Configuration constant of `MongoSizing.py`. -/
def IOPS_THRESHOLD : ℚ := 4000

/-- The substituted value `1e-9` of the zero-denominator guard, exact. -/
def EPS_DENOM : ℚ := 1 / 1000000000

/-- Aggregate `total_data_gb` of `MongoSizing.py` after its zero guard: the
sum of all `data_gb`, replaced by `1e-9` when that sum is exactly zero. -/
def total_data_gb (rs : List ClientRecord) : ℚ :=
  let s := (rs.map (fun d => d.data_gb)).sum
  if s = 0 then EPS_DENOM else s

/-- Aggregate `total_iops` of `MongoSizing.py` after its zero guard. -/
def total_iops (rs : List ClientRecord) : ℚ :=
  let s := (rs.map iopsOf).sum
  if s = 0 then EPS_DENOM else s

/-- Per-client `data_share` of the allocation loop. -/
def data_share (rs : List ClientRecord) (d : ClientRecord) : ℚ :=
  d.data_gb / total_data_gb rs

/-- Per-client `iops_share` of the allocation loop. -/
def iops_share (rs : List ClientRecord) (d : ClientRecord) : ℚ :=
  iopsOf d / total_iops rs

/-- The heavy-IOPS test of the blended branch: allow-listed client, or
throughput at or above `IOPS_THRESHOLD`. -/
def isHeavyIops (d : ClientRecord) : Bool :=
  HEAVY_IOPS_CLIENTS.contains d.client || decide (IOPS_THRESHOLD ≤ iopsOf d)

/-- Per-client `weighted_share`, parameterized by the `PURE_DATA_ONLY`
configuration flag: the pure policy is the data share; the blended policy
mixes data and IOPS shares with the heavy or default weight pair. -/
def weighted_share (pureDataOnly : Bool) (rs : List ClientRecord) (d : ClientRecord) : ℚ :=
  if pureDataOnly then data_share rs d
  else if isHeavyIops d then
    data_share rs d * HEAVY_DATA_WEIGHT + iops_share rs d * HEAVY_IOPS_WEIGHT
  else
    data_share rs d * DEFAULT_DATA_WEIGHT + iops_share rs d * DEFAULT_IOPS_WEIGHT

/-- Per-client `monthly_cost = weighted_share * TOTAL_CLUSTER_COST`. -/
def monthly_cost (pureDataOnly : Bool) (rs : List ClientRecord) (d : ClientRecord) : ℚ :=
  weighted_share pureDataOnly rs d * TOTAL_CLUSTER_COST

example : classify 1024 0 = "Data-Intensive" := by
  simp [classify, DATA_INTENSIVE_THRESHOLD, IOPS_INTENSIVE_THRESHOLD]
example : classify (102399/100) (399999/100) = "Moderate" := by
  norm_num [classify, DATA_INTENSIVE_THRESHOLD, IOPS_INTENSIVE_THRESHOLD]
example : recommend_cluster_tier 100 16000 = "M200" := by
  norm_num [recommend_cluster_tier]
example : tier_monthly_cost "M200" = 8000 := by
  simp [tier_monthly_cost, CLUSTER_TIERS, List.lookup]
/-- Sum of a mapped pointwise addition splits into two sums. -/
lemma sum_map_add_fun {α : Type} (l : List α) (f g : α → ℚ) :
    (l.map (fun x => f x + g x)).sum = (l.map f).sum + (l.map g).sum := by
  induction l with
  | nil => simp
  | cons x xs ih => simp [ih]; ring

/-- A list of zeros sums to zero. -/
lemma sum_all_zero (l : List ℚ) (h : ∀ x ∈ l, x = 0) : l.sum = 0 := by
  induction l with
  | nil => simp
  | cons x xs ih =>
    simp only [List.sum_cons, h x (by simp)]
    rw [ih (fun y hy => h y (by simp [hy]))]
    simp

/-- C6: the workload classifier evaluates the two fixed thresholds
independently with inclusive comparison: both thresholds met gives the
combined label, storage alone gives "Data-Intensive", throughput alone gives
"IOPS-Intensive", neither gives "Moderate"; boundary cases
`classify(1024.0, 0.0)`, `classify(1023.99, 3999.99)` and
`classify(1024.0, 4000.0)` behave as the spec states. -/
theorem c6_classifier_thresholds (d i : ℚ) :
    (1024 ≤ d → 4000 ≤ i → classify d i = "Data+IOPS Intensive") ∧
    (1024 ≤ d → i < 4000 → classify d i = "Data-Intensive") ∧
    (d < 1024 → 4000 ≤ i → classify d i = "IOPS-Intensive") ∧
    (d < 1024 → i < 4000 → classify d i = "Moderate") ∧
    classify 1024 0 = "Data-Intensive" ∧
    classify (102399 / 100) (399999 / 100) = "Moderate" ∧
    classify 1024 4000 = "Data+IOPS Intensive" := by
  refine ⟨fun h1 h2 => ?_, fun h1 h2 => ?_, fun h1 h2 => ?_, fun h1 h2 => ?_, ?_, ?_, ?_⟩
  · simp [classify, DATA_INTENSIVE_THRESHOLD, IOPS_INTENSIVE_THRESHOLD, h1, h2]
  · simp [classify, DATA_INTENSIVE_THRESHOLD, IOPS_INTENSIVE_THRESHOLD, h1, h2.not_le]
  · simp [classify, DATA_INTENSIVE_THRESHOLD, IOPS_INTENSIVE_THRESHOLD, h1.not_le, h2]
  · simp [classify, DATA_INTENSIVE_THRESHOLD, IOPS_INTENSIVE_THRESHOLD, h1.not_le, h2.not_le]
  · norm_num [classify, DATA_INTENSIVE_THRESHOLD, IOPS_INTENSIVE_THRESHOLD]
  · norm_num [classify, DATA_INTENSIVE_THRESHOLD, IOPS_INTENSIVE_THRESHOLD]
  · norm_num [classify, DATA_INTENSIVE_THRESHOLD, IOPS_INTENSIVE_THRESHOLD]

/-- Witness for C6 at a concrete boundary point. -/
theorem c6_classifier_thresholds_witness : classify 1024 4000 = "Data+IOPS Intensive" :=
  (c6_classifier_thresholds 1024 4000).1 (by norm_num) (by norm_num)

/-- C7: the tier recommender is an ordered first-match-wins cascade with
inclusive comparisons and OR semantics across the storage and throughput
dimensions, and `recommend_tier(100, 16000)` escalates to the largest tier on
the IOPS branch alone. -/
theorem c7_tier_cascade (d i : ℚ) :
    (5000 ≤ d ∨ 15000 ≤ i → recommend_cluster_tier d i = "M200") ∧
    (¬(5000 ≤ d ∨ 15000 ≤ i) → (2000 ≤ d ∨ 8000 ≤ i) →
      recommend_cluster_tier d i = "M100") ∧
    (¬(5000 ≤ d ∨ 15000 ≤ i) → ¬(2000 ≤ d ∨ 8000 ≤ i) → (500 ≤ d ∨ 2000 ≤ i) →
      recommend_cluster_tier d i = "M50") ∧
    (¬(5000 ≤ d ∨ 15000 ≤ i) → ¬(2000 ≤ d ∨ 8000 ≤ i) → ¬(500 ≤ d ∨ 2000 ≤ i) →
      recommend_cluster_tier d i = "M30") ∧
    recommend_cluster_tier 100 16000 = "M200" := by
  refine ⟨fun h1 => ?_, fun h1 h2 => ?_, fun h1 h2 h3 => ?_, fun h1 h2 h3 => ?_, ?_⟩
  · simp [recommend_cluster_tier, h1]
  · simp [recommend_cluster_tier, h1, h2]
  · simp [recommend_cluster_tier, h1, h2, h3]
  · simp [recommend_cluster_tier, h1, h2, h3]
  · norm_num [recommend_cluster_tier]

/-- Witness for C7 at a concrete input on the IOPS-only branch. -/
theorem c7_tier_cascade_witness : recommend_cluster_tier 100 16000 = "M200" :=
  (c7_tier_cascade 100 16000).1 (Or.inr (by norm_num))

/-- C10: for every input, the recommended tier is one of the four names of
the `CLUSTER_TIERS` table, its lookup succeeds (so the `2000.0` fallback is
unreachable), and the emitted monthly cost is one of the four table values. -/
theorem c10_tier_always_in_table (d i : ℚ) :
    recommend_cluster_tier d i ∈ ["M200", "M100", "M50", "M30"] ∧
    (CLUSTER_TIERS.lookup (recommend_cluster_tier d i)).isSome = true ∧
    tier_monthly_cost (recommend_cluster_tier d i) ∈ ([1500, 3000, 5000, 8000] : List ℚ) := by
  unfold recommend_cluster_tier
  split_ifs <;> simp [CLUSTER_TIERS, List.lookup, tier_monthly_cost]

/-- C9: any input whose stripped, lowercased form starts with `"0.00"` parses
to exactly 0, regardless of unit suffix; in particular `"0.005 TB"`, which
would otherwise denote 5.12 GB, parses to 0. -/
theorem c9_zero_prefix_shadows_units :
    (∀ s : String, pyStarts (pyLower (pyStrip s)) "0.00" = true →
      parse_data_size s = some 0) ∧
    parse_data_size "0.005 TB" = some 0 := by
  constructor
  · intro s h
    simp [parse_data_size, h]
  · decide

/-- Witness for C9 at the concrete input named by the claim. -/
theorem c9_zero_prefix_shadows_units_witness : parse_data_size "0.005 TB" = some 0 :=
  c9_zero_prefix_shadows_units.1 "0.005 TB" (by decide)

/-- C2 (code bug): `parse_data_size` is not total.  Its regex group `[\d\.]+`
can match a string consisting of dots only (or with several dots), on which
`float(...)` raises `ValueError`; the embedding returns `none` (= raised
exception) on the failing inputs `"."` and `"1.2.3 GB"`, contradicting the
function's own docstring ("Returns 0.0 if invalid"). -/
theorem c2_parse_data_size_raises :
    parse_data_size "." = none ∧ parse_data_size "1.2.3 GB" = none := by
  decide
/-- C5: unit conversion of `parse_data_size` is exact: the five concrete
values of the spec, and, whenever the sentinel checks pass and the leading
numeric group parses to `val`, a `tb` token multiplies by 1024, otherwise a
`gb` token leaves the value unchanged, otherwise an `mb` token divides by
1024, and no unit token leaves the value unchanged. -/
theorem c5_unit_conversion :
    parse_data_size "1 TB" = some 1024 ∧
    parse_data_size "512 MB" = some (1 / 2) ∧
    parse_data_size "3.5 GB" = some (7 / 2) ∧
    parse_data_size "#DIV/0!" = some 0 ∧
    parse_data_size "" = some 0 ∧
    (∀ (s t : String) (val : ℚ),
      t = pyLower (pyStrip s) →
      (hasSub t "#div/0" || t == "0.00 mb" || pyStarts t "0.00") = false →
      t ≠ "" →
      (leadGroup t.data).isEmpty = false →
      pyFloat (String.mk (leadGroup t.data)) = some val →
      (hasSub t "tb" = true → parse_data_size s = some (val * 1024)) ∧
      (hasSub t "tb" = false → hasSub t "gb" = true → parse_data_size s = some val) ∧
      (hasSub t "tb" = false → hasSub t "gb" = false → hasSub t "mb" = true →
        parse_data_size s = some (val / 1024)) ∧
      (hasSub t "tb" = false → hasSub t "gb" = false → hasSub t "mb" = false →
        parse_data_size s = some val)) := by
  refine ⟨?_, ?_, ?_, ?_, ?_, ?_⟩
  · simp [parse_data_size, pyStrip, pyLower, pyLowerChar, pySpace, hasSub, hasSubAux,
      pyStarts, leadGroup, natDigits, pyFloat, pyFloatCore]
  · simp [parse_data_size, pyStrip, pyLower, pyLowerChar, pySpace, hasSub, hasSubAux,
      pyStarts, leadGroup, natDigits, pyFloat, pyFloatCore]
    norm_num
  · simp [parse_data_size, pyStrip, pyLower, pyLowerChar, pySpace, hasSub, hasSubAux,
      pyStarts, leadGroup, natDigits, pyFloat, pyFloatCore]
    norm_num
  · decide
  · decide
  · intro s t val ht h1 h2 h3 h4
    subst ht
    have h1l := (Bool.or_eq_false_iff.mp h1).1
    have hzz := (Bool.or_eq_false_iff.mp h1).2
    have hdiv := (Bool.or_eq_false_iff.mp h1l).1
    have hmb0 := (Bool.or_eq_false_iff.mp h1l).2
    refine ⟨fun htb => ?_, fun htb hgb => ?_, fun htb hgb hmb => ?_, fun htb hgb hmb => ?_⟩
    · simp [parse_data_size, hdiv, hmb0, hzz, h2, h3, h4, htb]
    · simp [parse_data_size, hdiv, hmb0, hzz, h2, h3, h4, htb, hgb]
    · simp [parse_data_size, hdiv, hmb0, hzz, h2, h3, h4, htb, hgb, hmb]
    · simp [parse_data_size, hdiv, hmb0, hzz, h2, h3, h4, htb, hgb, hmb]

/-- Witness for C5's conditional conversion rules at a fresh concrete input. -/
theorem c5_unit_conversion_witness : parse_data_size "2 TB" = some (2 * 1024) :=
  (c5_unit_conversion.2.2.2.2.2 "2 TB" (pyLower (pyStrip "2 TB")) 2 rfl (by decide) (by decide)
    (by decide)
    (by simp [pyFloat, pyFloatCore, leadGroup, natDigits, pyStrip, pyLower, pyLowerChar,
      pySpace])).1 (by decide)
/-- C1 counterexample: a throughput row for "acme" followed by a size row for
"acme" yields TWO records for "acme", because the 4-column branch appends
unconditionally without searching for an existing record. -/
theorem c1_counterexample :
    processLines ["acme\t900.0\t100.0\t90%\t10%", "acme\tJan\t1.00 TB\t5.00%"]
      = some [⟨"acme", 0, 900, 100⟩, ⟨"acme", 1024, 0, 0⟩] ∧
    ((processLines ["acme\t900.0\t100.0\t90%\t10%", "acme\tJan\t1.00 TB\t5.00%"]).getD
        []).countP (fun d => d.client == "acme") = 2 := by
  constructor <;>
    simp [processLines, processRows, processRow, tokenizeLine, splitOnChar, pyStrip, pyLower,
      pyLowerChar, pySpace, parse_data_size, parse_float_maybe, hasSub, hasSubAux, pyStarts,
      leadGroup, natDigits, pyFloat, pyFloatCore, updOps, List.countP, List.countP.go]

/-- C1 amended: a size row for a client followed later by a throughput row for
the same client merges into exactly one record with both field groups
populated; in the opposite order the size row appends a second record, so the
record set holds two entries for that client. -/
theorem c1_merge_order_dependent (c a s g r w p q : String) (v : ℚ)
    (h : parse_data_size (pyStrip s) = some v) :
    processRows [[c, a, s, g], [c, r, w, p, q]]
      = some [⟨pyLower (pyStrip c), v, parse_float_maybe r, parse_float_maybe w⟩] ∧
    processRows [[c, r, w, p, q], [c, a, s, g]]
      = some [⟨pyLower (pyStrip c), 0, parse_float_maybe r, parse_float_maybe w⟩,
          ⟨pyLower (pyStrip c), v, 0, 0⟩] := by
  constructor <;> simp [processRows, processRow, updOps, h]

/-- Witness for C1's amended statement at concrete rows. -/
theorem c1_merge_order_dependent_witness :
    processRows [["acme", "Jan", "1.00 TB", "5.00%"], ["acme", "900.0", "100.0", "90%", "10%"]]
      = some [⟨"acme", 1024, 900, 100⟩] := by
  have h := (c1_merge_order_dependent "acme" "Jan" "1.00 TB" "5.00%" "900.0" "100.0" "90%"
    "10%" 1024 (by simp [parse_data_size, pyStrip, pyLower, pyLowerChar, pySpace, hasSub,
      hasSubAux, pyStarts, leadGroup, natDigits, pyFloat, pyFloatCore])).1
  simpa [pyStrip, pyLower, pyLowerChar, pySpace, parse_float_maybe, hasSub, hasSubAux,
    pyFloat, pyFloatCore, natDigits] using h
/-- The unsigned float body always parses to a nonnegative value. -/
lemma pyFloatCore_nonneg (l : List Char) (v : ℚ) (h : pyFloatCore l = some v) : 0 ≤ v := by
  unfold pyFloatCore at h
  split at h
  · simp only [Option.some.injEq] at h
    subst h
    positivity
  · exact Option.noConfusion h

/-- A string of digits and dots has no sign character, so `pyFloat` on it
reduces to the unsigned body and is nonnegative. -/
lemma pyFloat_digits_nonneg (l : List Char)
    (hall : ∀ c ∈ l, (c.isDigit || c == '.') = true) (v : ℚ)
    (h : pyFloat (String.mk l) = some v) : 0 ≤ v := by
  cases l with
  | nil => exact pyFloatCore_nonneg [] v h
  | cons c rest =>
    have hc := hall c (List.mem_cons_self c rest)
    simp only [pyFloat] at h
    split_ifs at h with hp hm
    · subst hp
      simp at hc
    · subst hm
      simp at hc
    · exact pyFloatCore_nonneg (c :: rest) v h

/-- Membership in the leading numeric group means being a digit or a dot. -/
lemma mem_leadGroup (c : Char) (l : List Char) (h : c ∈ leadGroup l) :
    (c.isDigit || c == '.') = true := by
  unfold leadGroup at h
  have h2 := List.mem_takeWhile_imp h
  simpa using h2

/-- Whenever `parse_data_size` returns a value (no exception), that value is
nonnegative: sentinel branches return 0 and the leading `[\d\.]+` group has no
minus sign. -/
lemma parse_data_size_nonneg (s : String) (v : ℚ) (h : parse_data_size s = some v) :
    0 ≤ v := by
  simp only [parse_data_size] at h
  split at h
  · simp only [Option.some.injEq] at h
    subst h
    exact le_refl 0
  · split at h
    · simp only [Option.some.injEq] at h
      subst h
      exact le_refl 0
    · split at h
      · simp only [Option.some.injEq] at h
        subst h
        exact le_refl 0
      · rcases hpf : pyFloat (String.mk (leadGroup (pyLower (pyStrip s)).data)) with _ | val
        · rw [hpf] at h
          exact Option.noConfusion h
        · rw [hpf] at h
          have hval : 0 ≤ val :=
            pyFloat_digits_nonneg _ (fun c hc => mem_leadGroup c _ hc) val hpf
          split_ifs at h <;> simp only [Option.some.injEq] at h <;> subst h
          · positivity
          · exact hval
          · positivity
          · exact hval

/-- The in-place throughput update leaves every `data_gb` field untouched. -/
lemma updOps_data_gb_nonneg (name : String) (r w : ℚ) :
    ∀ (l l2 : List ClientRecord), updOps name r w l = some l2 →
      (∀ d ∈ l, 0 ≤ d.data_gb) → ∀ d ∈ l2, 0 ≤ d.data_gb := by
  intro l
  induction l with
  | nil => intro l2 h; exact Option.noConfusion h
  | cons x xs ih =>
    intro l2 h hall d hd
    simp only [updOps] at h
    split at h
    · simp only [Option.some.injEq] at h
      subst h
      rcases List.mem_cons.mp hd with rfl | hd2
      · exact hall x (List.mem_cons_self x xs)
      · exact hall d (List.mem_cons_of_mem x hd2)
    · cases hx : updOps name r w xs with
      | none => rw [hx] at h; exact Option.noConfusion h
      | some ys =>
        rw [hx] at h
        simp only [Option.map_some', Option.some.injEq] at h
        subst h
        rcases List.mem_cons.mp hd with rfl | hd2
        · exact hall _ (List.mem_cons_self _ _)
        · exact ih ys hx (fun e he => hall e (List.mem_cons_of_mem x he)) d hd2

/-- One assembly step preserves nonnegativity of every `data_gb` field. -/
lemma processRow_data_gb_nonneg (acc : List ClientRecord) (cols : List String)
    (res : List ClientRecord) (h : processRow acc cols = some res)
    (hacc : ∀ d ∈ acc, 0 ≤ d.data_gb) : ∀ d ∈ res, 0 ≤ d.data_gb := by
  simp only [processRow] at h
  split at h
  · rcases hp : parse_data_size (pyStrip (cols.getD 2 "")) with _ | v
    · rw [hp] at h
      exact Option.noConfusion h
    · rw [hp] at h
      simp only [Option.some.injEq] at h
      subst h
      intro d hd
      rcases List.mem_append.mp hd with hd1 | hd2
      · exact hacc d hd1
      · have : d = ⟨pyLower (pyStrip (cols.getD 0 "")), v, 0, 0⟩ := by
          simpa using hd2
        rw [this]
        exact parse_data_size_nonneg _ v hp
  · split at h
    · cases hu : updOps (pyLower (pyStrip (cols.getD 0 "")))
        (parse_float_maybe (cols.getD 1 "")) (parse_float_maybe (cols.getD 2 "")) acc with
      | some acc2 =>
        rw [hu] at h
        simp only [Option.some.injEq] at h
        subst h
        exact updOps_data_gb_nonneg _ _ _ acc _ hu hacc
      | none =>
        rw [hu] at h
        simp only [Option.some.injEq] at h
        subst h
        intro d hd
        rcases List.mem_append.mp hd with hd1 | hd2
        · exact hacc d hd1
        · have : d = ⟨pyLower (pyStrip (cols.getD 0 "")), 0,
              parse_float_maybe (cols.getD 1 ""), parse_float_maybe (cols.getD 2 "")⟩ := by
            simpa using hd2
          rw [this]
    · simp only [Option.some.injEq] at h
      subst h
      exact hacc

/-- The whole assembly fold preserves nonnegativity of every `data_gb`. -/
lemma foldl_data_gb_nonneg :
    ∀ (rows : List (List String)) (acc res : List ClientRecord),
      (∀ d ∈ acc, 0 ≤ d.data_gb) → List.foldlM processRow acc rows = some res →
      ∀ d ∈ res, 0 ≤ d.data_gb := by
  intro rows
  induction rows with
  | nil =>
    intro acc res hacc h
    simp only [List.foldlM_nil, Option.pure_def, Option.some.injEq] at h
    subst h
    exact hacc
  | cons row rest ih =>
    intro acc res hacc h
    rw [List.foldlM_cons] at h
    cases hr : processRow acc row with
    | none =>
      rw [hr] at h
      simp only [Option.bind_eq_bind, Option.none_bind] at h
      exact Option.noConfusion h
    | some acc2 =>
      rw [hr] at h
      simp only [Option.bind_eq_bind, Option.some_bind] at h
      exact ih acc2 res (processRow_data_gb_nonneg acc row acc2 hr hacc) h
/-- C4 counterexample: a throughput field holding a parseable negative
literal is stored as a negative number, not normalized to 0 — the assembled
record for this input has `avg_read_ops_s = -5 < 0`. -/
theorem c4_counterexample :
    processLines ["acme\t-5\t3\t90%\t10%"] = some [⟨"acme", 0, -5, 3⟩] ∧
    (ClientRecord.mk "acme" 0 (-5) 3).avg_read_ops_s < 0 := by
  constructor
  · simp [processLines, processRows, processRow, tokenizeLine, splitOnChar, pyStrip, pyLower,
      pyLowerChar, pySpace, parse_data_size, parse_float_maybe, hasSub, hasSubAux, pyStarts,
      leadGroup, natDigits, pyFloat, pyFloatCore, updOps]
  · norm_num

/-- C4 amended: whenever the assembly loop completes without an exception,
every assembled record's `data_gb` is nonnegative (the size parser never
produces a negative value); throughput fields are instead stored exactly as
parsed and can be negative for negative input literals, and the loop aborts
when a size field raises in `float`. -/
theorem c4_data_gb_nonneg (lines : List String) (rs : List ClientRecord)
    (h : processLines lines = some rs) (d : ClientRecord) (hd : d ∈ rs) :
    0 ≤ d.data_gb := by
  have h2 : List.foldlM processRow []
      (((lines.map pyStrip).filter (fun l => l ≠ "")).map tokenizeLine) = some rs := h
  exact foldl_data_gb_nonneg _ [] rs (by simp) h2 d hd

/-- Witness for C4's amended statement at a concrete input. -/
theorem c4_data_gb_nonneg_witness : 0 ≤ (ClientRecord.mk "acme" 1024 900 100).data_gb :=
  c4_data_gb_nonneg ["acme\tJan\t1.00 TB\t5.00%", "acme\t900.0\t100.0\t90%\t10%"]
    [⟨"acme", 1024, 900, 100⟩]
    (by simp [processLines, processRows, processRow, tokenizeLine, splitOnChar, pyStrip,
      pyLower, pyLowerChar, pySpace, parse_data_size, parse_float_maybe, hasSub, hasSubAux,
      pyStarts, leadGroup, natDigits, pyFloat, pyFloatCore, updOps])
    ⟨"acme", 1024, 900, 100⟩ (by simp)
/-- C8 counterexample: with a single all-zero client, the guard makes the
data share exactly 0 while an even split would be 1 — the share is not close
to an even split. -/
theorem c8_counterexample :
    data_share [⟨"a", 0, 0, 0⟩] ⟨"a", 0, 0, 0⟩ = 0 ∧
    (1 : ℚ) / (([⟨"a", 0, 0, 0⟩] : List ClientRecord).length : ℚ) = 1 ∧
    ¬ |data_share [⟨"a", 0, 0, 0⟩] ⟨"a", 0, 0, 0⟩
        - 1 / (([⟨"a", 0, 0, 0⟩] : List ClientRecord).length : ℚ)| < 1 / 2 := by
  norm_num [data_share, total_data_gb, EPS_DENOM]

/-- C8 amended: when every client's `data_gb` is 0 the allocator substitutes
the nonzero denominator `1e-9`, so no division by zero occurs and every
client's `data_share` is exactly 0 (finite, not an even split); likewise for
the IOPS side. -/
theorem c8_zero_total_guard (rs : List ClientRecord) :
    ((∀ d ∈ rs, d.data_gb = 0) →
      total_data_gb rs = EPS_DENOM ∧ total_data_gb rs ≠ 0 ∧
      ∀ d ∈ rs, data_share rs d = 0) ∧
    ((∀ d ∈ rs, iopsOf d = 0) →
      total_iops rs = EPS_DENOM ∧ total_iops rs ≠ 0 ∧
      ∀ d ∈ rs, iops_share rs d = 0) := by
  constructor
  · intro h
    have hsum : (rs.map (fun d => d.data_gb)).sum = 0 := by
      apply sum_all_zero
      intro x hx
      obtain ⟨d, hd, rfl⟩ := List.mem_map.mp hx
      exact h d hd
    have htot : total_data_gb rs = EPS_DENOM := by simp [total_data_gb, hsum]
    refine ⟨htot, by rw [htot]; norm_num [EPS_DENOM], fun d hd => ?_⟩
    simp [data_share, h d hd]
  · intro h
    have hsum : (rs.map iopsOf).sum = 0 := by
      apply sum_all_zero
      intro x hx
      obtain ⟨d, hd, rfl⟩ := List.mem_map.mp hx
      exact h d hd
    have htot : total_iops rs = EPS_DENOM := by simp [total_iops, hsum]
    refine ⟨htot, by rw [htot]; norm_num [EPS_DENOM], fun d hd => ?_⟩
    simp [iops_share, h d hd]

/-- Witness for C8's amended statement on a concrete all-zero record set. -/
theorem c8_zero_total_guard_witness :
    data_share [⟨"a", 0, 0, 0⟩, ⟨"b", 0, 0, 0⟩] ⟨"b", 0, 0, 0⟩ = 0 :=
  ((c8_zero_total_guard [⟨"a", 0, 0, 0⟩, ⟨"b", 0, 0, 0⟩]).1 (by simp)).2.2
    ⟨"b", 0, 0, 0⟩ (by simp)
/-- Sum of a mapped pointwise division by a constant. -/
lemma sum_map_div_fun {α : Type} (l : List α) (f : α → ℚ) (c : ℚ) :
    (l.map (fun x => f x / c)).sum = (l.map f).sum / c := by
  induction l with
  | nil => simp
  | cons x xs ih => simp [ih, add_div]

/-- Sum of a mapped pointwise multiplication by a constant. -/
lemma sum_map_mul_fun {α : Type} (l : List α) (f : α → ℚ) (c : ℚ) :
    (l.map (fun x => f x * c)).sum = (l.map f).sum * c := by
  induction l with
  | nil => simp
  | cons x xs ih => simp [ih, add_mul]

/-- When the raw data total is nonzero, the data shares sum to exactly 1. -/
lemma sum_data_share (rs : List ClientRecord)
    (h : (rs.map (fun d => d.data_gb)).sum ≠ 0) :
    (rs.map (fun d => data_share rs d)).sum = 1 := by
  have e : (rs.map (fun d => data_share rs d))
      = rs.map (fun d => d.data_gb / total_data_gb rs) := by
    simp [data_share]
  rw [e, sum_map_div_fun rs (fun d => d.data_gb) (total_data_gb rs)]
  have ht : total_data_gb rs = (rs.map (fun d => d.data_gb)).sum := by
    simp [total_data_gb, h]
  rw [ht, div_self h]

/-- When the raw IOPS total is nonzero, the IOPS shares sum to exactly 1. -/
lemma sum_iops_share (rs : List ClientRecord) (h : (rs.map iopsOf).sum ≠ 0) :
    (rs.map (fun d => iops_share rs d)).sum = 1 := by
  have e : (rs.map (fun d => iops_share rs d))
      = rs.map (fun d => iopsOf d / total_iops rs) := by
    simp [iops_share]
  have e2 : rs.map iopsOf = rs.map (fun d => iopsOf d) := by simp
  rw [e, sum_map_div_fun rs (fun d => iopsOf d) (total_iops rs)]
  have ht : total_iops rs = (rs.map (fun d => iopsOf d)).sum := by
    rw [← e2]
    simp [total_iops, h]
  rw [ht, div_self]
  rw [← e2]
  exact h

/-- C3 counterexample: under the blended policy, one default-weight client
(all data, no IOPS) and one heavy-weight client (no data, heavy IOPS) give
weighted shares 0.5 and 0.75, so the shares sum to 1.25 and the monthly costs
sum to 300000, not the configured 240000. -/
theorem c3_counterexample :
    (([⟨"a", 100, 0, 0⟩, ⟨"b", 0, 5000, 0⟩] : List ClientRecord).map
        (fun d => weighted_share false [⟨"a", 100, 0, 0⟩, ⟨"b", 0, 5000, 0⟩] d)).sum ≠ 1 ∧
    (([⟨"a", 100, 0, 0⟩, ⟨"b", 0, 5000, 0⟩] : List ClientRecord).map
        (fun d => monthly_cost false [⟨"a", 100, 0, 0⟩, ⟨"b", 0, 5000, 0⟩] d)).sum
      ≠ TOTAL_CLUSTER_COST := by
  have hs : ¬("a" = "adventhealth" ∨ "a" = "clevelandclin" ∨ "a" = "psjhealth") := by decide
  constructor <;>
    norm_num [weighted_share, monthly_cost, data_share, iops_share, total_data_gb, total_iops,
      iopsOf, isHeavyIops, HEAVY_IOPS_CLIENTS, EPS_DENOM, DEFAULT_DATA_WEIGHT,
      DEFAULT_IOPS_WEIGHT, HEAVY_DATA_WEIGHT, HEAVY_IOPS_WEIGHT, IOPS_THRESHOLD,
      TOTAL_CLUSTER_COST, List.contains, hs]

/-- C3 amended: with a nonzero data total, the pure-size policy's weighted
shares sum to exactly 1 and its monthly costs to the configured total; the
blended policy conserves likewise when additionally the IOPS total is nonzero
and all clients fall in the same weight class (all heavy or all default). -/
theorem c3_allocation_conservation (rs : List ClientRecord) :
    ((rs.map (fun d => d.data_gb)).sum ≠ 0 →
      (rs.map (fun d => weighted_share true rs d)).sum = 1 ∧
      (rs.map (fun d => monthly_cost true rs d)).sum = TOTAL_CLUSTER_COST) ∧
    ((rs.map (fun d => d.data_gb)).sum ≠ 0 → (rs.map iopsOf).sum ≠ 0 →
      ((∀ d ∈ rs, isHeavyIops d = true) ∨ (∀ d ∈ rs, isHeavyIops d = false)) →
      (rs.map (fun d => weighted_share false rs d)).sum = 1 ∧
      (rs.map (fun d => monthly_cost false rs d)).sum = TOTAL_CLUSTER_COST) := by
  have costof : ∀ (b : Bool), (rs.map (fun d => weighted_share b rs d)).sum = 1 →
      (rs.map (fun d => monthly_cost b rs d)).sum = TOTAL_CLUSTER_COST := by
    intro b hws
    have e : (rs.map (fun d => monthly_cost b rs d))
        = rs.map (fun d => weighted_share b rs d * TOTAL_CLUSTER_COST) := by
      simp [monthly_cost]
    rw [e, sum_map_mul_fun rs (fun d => weighted_share b rs d) TOTAL_CLUSTER_COST, hws,
      one_mul]
  constructor
  · intro h
    have hws : (rs.map (fun d => weighted_share true rs d)).sum = 1 := by
      have e : (rs.map (fun d => weighted_share true rs d))
          = rs.map (fun d => data_share rs d) := by
        simp [weighted_share]
      rw [e]
      exact sum_data_share rs h
    exact ⟨hws, costof true hws⟩
  · intro h hi hcase
    have hd1 := sum_data_share rs h
    have hi1 := sum_iops_share rs hi
    have hws : (rs.map (fun d => weighted_share false rs d)).sum = 1 := by
      rcases hcase with hall | hall
      · have e : (rs.map (fun d => weighted_share false rs d))
            = rs.map (fun d => data_share rs d * HEAVY_DATA_WEIGHT
                + iops_share rs d * HEAVY_IOPS_WEIGHT) := by
          apply List.map_congr_left
          intro d hd
          simp [weighted_share, hall d hd]
        rw [e, sum_map_add_fun rs (fun d => data_share rs d * HEAVY_DATA_WEIGHT)
            (fun d => iops_share rs d * HEAVY_IOPS_WEIGHT),
          sum_map_mul_fun rs (fun d => data_share rs d) HEAVY_DATA_WEIGHT,
          sum_map_mul_fun rs (fun d => iops_share rs d) HEAVY_IOPS_WEIGHT, hd1, hi1]
        norm_num [HEAVY_DATA_WEIGHT, HEAVY_IOPS_WEIGHT]
      · have e : (rs.map (fun d => weighted_share false rs d))
            = rs.map (fun d => data_share rs d * DEFAULT_DATA_WEIGHT
                + iops_share rs d * DEFAULT_IOPS_WEIGHT) := by
          apply List.map_congr_left
          intro d hd
          simp [weighted_share, hall d hd]
        rw [e, sum_map_add_fun rs (fun d => data_share rs d * DEFAULT_DATA_WEIGHT)
            (fun d => iops_share rs d * DEFAULT_IOPS_WEIGHT),
          sum_map_mul_fun rs (fun d => data_share rs d) DEFAULT_DATA_WEIGHT,
          sum_map_mul_fun rs (fun d => iops_share rs d) DEFAULT_IOPS_WEIGHT, hd1, hi1]
        norm_num [DEFAULT_DATA_WEIGHT, DEFAULT_IOPS_WEIGHT]
    exact ⟨hws, costof false hws⟩

/-- Witness for C3's amended statement on a concrete record set, in both
policies. -/
theorem c3_allocation_conservation_witness :
    (([⟨"a", 1, 2, 3⟩] : List ClientRecord).map
        (fun d => weighted_share true [⟨"a", 1, 2, 3⟩] d)).sum = 1 ∧
    (([⟨"a", 1, 2, 3⟩] : List ClientRecord).map
        (fun d => weighted_share false [⟨"a", 1, 2, 3⟩] d)).sum = 1 :=
  ⟨((c3_allocation_conservation [⟨"a", 1, 2, 3⟩]).1 (by norm_num)).1,
    ((c3_allocation_conservation [⟨"a", 1, 2, 3⟩]).2 (by norm_num) (by norm_num [iopsOf])
      (Or.inr (by
        intro d hd
        simp only [List.mem_singleton] at hd
        subst hd
        norm_num [isHeavyIops, iopsOf, IOPS_THRESHOLD, HEAVY_IOPS_CLIENTS, List.contains]
        decide))).1⟩
